import Mathlib

/-!
# subaru-searcher: a shallow embedding of `main.go`

The program scrapes two salvage-yard inventories, keeps the listings whose
VIN is not in the persisted file `.subarus`, mails them, and rewrites the file.

Go strings are modelled by Lean strings, that is as UTF-8 text, on which the
byte-wise search of `strings.Replace` and a search over code points agree; Go
slices are lists, and an index expression `v[i]` is a lookup that faults when
`i` is out of range.  The
network, the mail relay and the file system are inputs of the model: a
`World` holds what each of them answers in one run.
-/

set_option autoImplicit false

namespace SubaruSearcher

/-! ## Data model -/

/-- The record `vehicle` of `main.go`: eleven text fields. -/
structure vehicle where
  Make : String
  Model : String
  Year : String
  VIN : String
  Color : String
  Mileage : String
  EngineSize : String
  Row : String
  VehicleNumber : String
  Description : String
  Site : String
deriving DecidableEq, Repr

/-- The zero value of `vehicle`: every field is the empty string. -/
def vehicle.zero : vehicle :=
  { Make := "", Model := "", Year := "", VIN := "", Color := "", Mileage := "",
    EngineSize := "", Row := "", VehicleNumber := "", Description := "", Site := "" }

/-! ## The dedup loop of `main` (lines 50-65) -/

/-- The inner loop: scan `savedSubarus` for a record with the VIN of `v`;
`saved` becomes true at the first hit and the scan stops. -/
def isSaved (v : vehicle) : List vehicle → Bool
  | [] => false
  | sv :: rest => if sv.VIN = v.VIN then true else isSaved v rest

/-- The outer loop over the candidates, with the two slices it grows as state:
a candidate that is not saved is appended to `newSubarus` and to
`savedSubarus`; a saved one is skipped. -/
def dedupFrom : List vehicle → List vehicle × List vehicle → List vehicle × List vehicle
  | [], st => st
  | v :: rest, (newSubarus, savedSubarus) =>
    if isSaved v savedSubarus then dedupFrom rest (newSubarus, savedSubarus)
    else dedupFrom rest (newSubarus ++ [v], savedSubarus ++ [v])

/-- The dedup loop as `main` runs it: `newSubarus` starts empty. The result is
the pair (new records, updated saved list). -/
def dedupLoop (subarus savedSubarus : List vehicle) : List vehicle × List vehicle :=
  dedupFrom subarus ([], savedSubarus)

/-- The `filterNew` of the specification: the new records of the dedup loop. -/
def filterNew (C S : List vehicle) : List vehicle := (dedupLoop C S).1

/-- The reading of `filterNew` in the specification: the elements of `C`
whose VIN is the VIN of no element of `S`, in the order of `C`. -/
def notInPersisted (C S : List vehicle) : List vehicle :=
  C.filter (fun c => decide (c.VIN ∉ S.map (fun sv => sv.VIN)))

/-- The element of `C` at position `i`, when its VIN is neither the VIN of an
element of `S` nor the VIN of an element of `C` at an earlier position. -/
def keptAt (C S : List vehicle) (i : Nat) : Option vehicle :=
  match C[i]? with
  | none => none
  | some v =>
    if v.VIN ∈ S.map (fun sv => sv.VIN) ∨ v.VIN ∈ (C.take i).map (fun c => c.VIN) then none
    else some v

/-- The elements of `C`, in the order of `C`, whose VIN is not in `S` and does
not occur earlier in `C`. -/
def firstOccurrencesNotIn (C S : List vehicle) : List vehicle :=
  (List.range C.length).filterMap (keptAt C S)

/-! ## Errors, panics and the library functions the program calls -/

/-- A Go `error` value, by the place that made it. The library calls of the
model answer with the text of their error; the program wraps it as `external`,
so `config` and `status` are made by the program alone. -/
inductive Err where
  /-- Made by `fmt.Errorf` in `sendNotificationOfNewSubarus` (lines 219, 222). -/
  | config (msg : String)
  /-- Made by `fmt.Errorf("invalid response status code: %d", ...)`. -/
  | status (code : Nat)
  /-- Returned by a library call: network, JSON, HTML, file system or SMTP. -/
  | external (msg : String)
deriving DecidableEq, Repr

/-- What a call of a function of the program ends in: a value, a returned
error, or a run-time panic (index out of range). -/
inductive Outcome (α : Type) where
  | ok (a : α)
  | error (err : Err)
  | fault
deriving DecidableEq, Repr

/-- The answer to an HTTP request: the request fails, or a response arrives
with a status code and a body; `body` is what decoding the body gives. -/
inductive HttpReply (β : Type) where
  | failed (err : String)
  | replied (statusCode : Nat) (body : Except String β)

/-- The function `unicode.ToLower` on one rune: the ASCII range as in the Go library, the
runes above it by the Unicode case table `lower`, a parameter of the model. -/
def toLowerRune (lower : Char → Char) (r : Char) : Char :=
  if r.toNat < 128 then
    (if 65 ≤ r.toNat ∧ r.toNat ≤ 90 then Char.ofNat (r.toNat + 32) else r)
  else lower r

/-- The function `strings.ToLower`: every rune mapped by `unicode.ToLower`. -/
def ToLower (lower : Char → Char) (s : String) : String :=
  String.mk (s.data.map (toLowerRune lower))

/-- The scan of `strings.Replace(s, old, new, -1)` for a non-empty `old`, left
to right over non-overlapping occurrences: at an occurrence `new` is emitted and
the rest of the occurrence (`skip` characters) is passed over. -/
def replaceFrom (old new : List Char) : Nat → List Char → List Char
  | _, [] => []
  | skip + 1, _ :: cs => replaceFrom old new skip cs
  | 0, c :: cs =>
    if old.isPrefixOf (c :: cs) then new ++ replaceFrom old new (old.length - 1) cs
    else c :: replaceFrom old new 0 cs

/-- The call `strings.Replace(s, old, new, -1)`; for an empty `old` Go inserts `new`
before every rune and at the end. -/
def Replace (s old new : String) : String :=
  if old.data = [] then String.mk (s.data.foldr (fun c acc => new.data ++ c :: acc) new.data)
  else String.mk (replaceFrom old.data new.data 0 s.data)

/-! ## `fetchCherryPickedSubarus` -/

/-- The index expression `v[i]` on a slice: `none` is the out-of-range panic. -/
def index (v : List String) (i : Nat) : Option String := v[i]?

/-- One turn of the loop over the response (lines 100-118): `none` is a panic,
`some none` the `continue` of a row of another make, `some (some x)` the
record appended. The index expressions are evaluated in source order. -/
def cherryRow (lower : Char → Char) (v : List String) : Option (Option vehicle) :=
  match index v 3 with
  | none => none
  | some make =>
    if ToLower lower make ≠ "subaru" then some none
    else
      (index v 3).bind fun Make =>
      (index v 4).bind fun Model =>
      (index v 2).bind fun Year =>
      (index v 8).bind fun VIN =>
      (index v 5).bind fun Color =>
      (index v 9).bind fun Mileage =>
      (index v 7).bind fun EngineSize =>
      (index v 0).bind fun Row =>
      (index v 1).bind fun VehicleNumber =>
      (index v 6).bind fun Description =>
      some (some
        { Make := Make, Model := Model, Year := Year, VIN := VIN, Color := Color,
          Mileage := Mileage, EngineSize := EngineSize, Row := Row,
          VehicleNumber := VehicleNumber, Description := Description,
          Site := "Cherry Picked Auto Parts" })

/-- The loop over the decoded response with the slice `subarus` it grows. -/
def cherryLoop (lower : Char → Char) : List (List String) → List vehicle → Option (List vehicle)
  | [], subarus => some subarus
  | v :: rest, subarus =>
    match cherryRow lower v with
    | none => none
    | some none => cherryLoop lower rest subarus
    | some (some x) => cherryLoop lower rest (subarus ++ [x])

/-- The function `fetchCherryPickedSubarus` on the reply to its GET request. -/
def fetchCherryPickedSubarus (lower : Char → Char) :
    HttpReply (List (List String)) → Outcome (List vehicle)
  | .failed err => .error (.external err)
  | .replied statusCode body =>
    if statusCode ≠ 200 then .error (.status statusCode)
    else
      match body with
      | .error err => .error (.external err)
      | .ok response =>
        match cherryLoop lower response [] with
        | none => .fault
        | some subarus => .ok subarus

/-- Case-insensitive comparison of two strings: equal after lower-casing. -/
def equalIgnoringCase (lower : Char → Char) (a b : String) : Prop :=
  ToLower lower a = ToLower lower b

instance (lower : Char → Char) (a b : String) : Decidable (equalIgnoringCase lower a b) :=
  inferInstanceAs (Decidable (ToLower lower a = ToLower lower b))

/-- Column `i` of a feed row. -/
def col (v : List String) (i : Nat) : String := v.getD i ""

/-- The record of a feed row by the column table of the specification. -/
def cherryRecord (v : List String) : vehicle :=
  { Make := col v 3, Model := col v 4, Year := col v 2, Color := col v 5,
    Description := col v 6, EngineSize := col v 7, VIN := col v 8, Mileage := col v 9,
    Row := col v 0, VehicleNumber := col v 1, Site := "Cherry Picked Auto Parts" }

/-! ## `fetchLKQSubarus` -/

/-- What the goquery selections give on one `tr.pypvi_resultRow`: the text of
the text-node children of `td.pypvi_make`, the text of the model, year and date
cells, and the text of each `td.pypvi_make > div.pypvi_notes > p` in document
order. -/
structure ResultRow where
  makeText : String
  modelText : String
  yearText : String
  dateText : String
  notes : List String
deriving DecidableEq, Repr

/-- The `switch i` of the callback on the notes paragraphs (lines 167-180). -/
def notesCase (v : vehicle) (i : Nat) (text : String) : vehicle :=
  match i with
  | 1 => { v with Row := Replace text "Row: ROW " "" }
  | 2 => { v with VehicleNumber := Replace text "Space: " "" }
  | 3 => { v with Color := Replace text "Color: " "" }
  | 4 => { v with VIN := Replace text "VIN: " "" }
  | _ => v

/-- The `Each` over the notes paragraphs, from index `i` on. -/
def notesEach : List String → Nat → vehicle → vehicle
  | [], _, v => v
  | text :: rest, i, v => notesEach rest (i + 1) (notesCase v i text)

/-- The record built for one result row (lines 156-183). -/
def lkqRow (s : ResultRow) : vehicle :=
  let v : vehicle :=
    { vehicle.zero with
      Make := s.makeText, Model := s.modelText, Year := s.yearText,
      Description := "Available On: " ++ s.dateText, Site := "LKQ Pick Your Part" }
  notesEach s.notes 0 v

/-- The `Each` over the result rows with the slice `subarus` it grows. -/
def lkqEach : List ResultRow → List vehicle → List vehicle
  | [], subarus => subarus
  | s :: rest, subarus => lkqEach rest (subarus ++ [lkqRow s])

/-- The function `fetchLKQSubarus` on the reply to its request; `body` is the
parsed fragment, as the list of its result rows. -/
def fetchLKQSubarus : HttpReply (List ResultRow) → Outcome (List vehicle)
  | .failed err => .error (.external err)
  | .replied statusCode body =>
    if statusCode ≠ 200 then .error (.status statusCode)
    else
      match body with
      | .error err => .error (.external err)
      | .ok rows => .ok (lkqEach rows [])

/-- A text with its leading and trailing whitespace removed. -/
def trimmed (d : String) : String :=
  String.mk ((d.data.dropWhile Char.isWhitespace).reverse.dropWhile Char.isWhitespace).reverse

/-! ## The persisted file, the notifier and `main` -/

/-- The state of the file `.subarus`. -/
inductive DbFile where
  /-- The file does not exist. -/
  | missing
  /-- The file holds JSON that decodes to these records. -/
  | contents (subarus : List vehicle)
  /-- Opening the file fails otherwise, or its content does not decode. -/
  | unreadable (err : String)
deriving DecidableEq, Repr

/-- The value `smtp.PlainAuth(identity, username, password, host)`. -/
structure PlainAuth where
  identity : String
  username : String
  password : String
  host : String
deriving DecidableEq, Repr

/-- What one run meets outside the program: the replies of the two sites, the
file, the three environment variables, and what the library calls with an
effect answer. -/
structure World where
  /-- The Unicode case table behind `unicode.ToLower`. -/
  lower : Char → Char
  cherryReply : HttpReply (List (List String))
  lkqReply : HttpReply (List ResultRow)
  file : DbFile
  SUBARU_NOTIF_FROM : String
  SUBARU_NOTIF_TO : String
  SUBARU_NOTIF_PASS : String
  /-- The function `json.MarshalIndent(subarus, "", "  ")`. -/
  marshalIndent : List vehicle → Except String String
  /-- The call `smtp.SendMail(addr, auth, from, to, msg)`: its error, if any. -/
  sendMail : String → PlainAuth → String → List String → String → Option String
  /-- The error of `os.Create(dbFile)`, if any. -/
  createErr : Option String
  /-- The error of `Encode(subarus)` on the created file, if any. -/
  encodeErr : List vehicle → Option String
  /-- The state a failed `Encode` leaves the created file in. -/
  afterFailedEncode : DbFile

/-- The steps of a run that the properties of the program speak about. -/
inductive Event where
  /-- The message body was built: `json.MarshalIndent` was called. -/
  | marshalled (subarus : List vehicle)
  /-- The network call `smtp.SendMail` was made. -/
  | mailed (addr : String) (auth : PlainAuth) (sender : String) (recipients : List String)
      (msg : String)
  /-- The function `sendNotificationOfNewSubarus` was called and returned `err`. -/
  | notified (sender recipient pass : String) (subarus : List vehicle) (err : Option Err)
  /-- The function `saveSubarus` was called and returned `err`. -/
  | saved (subarus : List vehicle) (err : Option Err)
deriving DecidableEq, Repr

/-- How the process ends: `main` returns, `log.Fatal(err)`, or a panic. -/
inductive Exit where
  | returned
  | fatal (err : Err)
  | fault
deriving DecidableEq, Repr

/-- A run of `main`: its steps in order, the file it leaves, and how it ends. -/
structure Run where
  trace : List Event
  file : DbFile
  exit : Exit
deriving DecidableEq, Repr

/-- The function `loadSavedSubarus`: a missing file is the empty list. -/
def loadSavedSubarus : DbFile → Except Err (List vehicle)
  | .missing => .ok []
  | .contents subarus => .ok subarus
  | .unreadable err => .error (.external err)

/-- The function `saveSubarus`: the file it leaves and the error it returns. -/
def saveSubarus (w : World) (subarus : List vehicle) : DbFile × Option Err :=
  match w.createErr with
  | some err => (w.file, some (.external err))
  | none =>
    match w.encodeErr subarus with
    | some err => (w.afterFailedEncode, some (.external err))
    | none => (.contents subarus, none)

/-- The function `sendNotificationOfNewSubarus`: the steps it takes (building
the message, the network call) and the error it returns. -/
def sendNotificationOfNewSubarus (w : World) (from_ to_ pass : String)
    (subarus : List vehicle) : List Event × Option Err :=
  if from_ = "" then ([], some (.config "\x27from\x27 required to send email notification"))
  else if pass = "" then
    ([], some (.config "\x27pass\x27 required to send email notification"))
  else
    let to_ := if to_ = "" then from_ else to_
    let auth : PlainAuth := ⟨"", from_, pass, "smtp.gmail.com"⟩
    match w.marshalIndent subarus with
    | .error err => ([.marshalled subarus], some (.external err))
    | .ok b =>
      let msg := "From: " ++ from_ ++ "\nTo: " ++ to_ ++ "\nSubject: New Subarus Found!\n\n" ++ b
      ([.marshalled subarus, .mailed "smtp.gmail.com:587" auth from_ [to_] msg],
        (w.sendMail "smtp.gmail.com:587" auth from_ [to_] msg).map Err.external)

/-- Whether an error is one of the two configuration errors of the notifier. -/
def Err.isConfig : Err → Bool
  | .config _ => true
  | _ => false

/-- The function `main`. -/
def main (w : World) : Run :=
  match fetchCherryPickedSubarus w.lower w.cherryReply with
  | .error err => ⟨[], w.file, .fatal err⟩
  | .fault => ⟨[], w.file, .fault⟩
  | .ok subarus =>
    match fetchLKQSubarus w.lkqReply with
    | .error err => ⟨[], w.file, .fatal err⟩
    | .fault => ⟨[], w.file, .fault⟩
    | .ok s =>
      let subarus := subarus ++ s
      match loadSavedSubarus w.file with
      | .error err => ⟨[], w.file, .fatal err⟩
      | .ok savedSubarus =>
        let (newSubarus, savedSubarus) := dedupLoop subarus savedSubarus
        if newSubarus.length = 0 then ⟨[], w.file, .returned⟩
        else
          let from_ := w.SUBARU_NOTIF_FROM
          let to_ := w.SUBARU_NOTIF_TO
          let pass := w.SUBARU_NOTIF_PASS
          match sendNotificationOfNewSubarus w from_ to_ pass newSubarus with
          | (steps, some err) =>
            ⟨steps ++ [.notified from_ to_ pass newSubarus (some err)], w.file, .fatal err⟩
          | (steps, none) =>
            match saveSubarus w savedSubarus with
            | (file, some err) =>
              ⟨steps ++ [.notified from_ to_ pass newSubarus none, .saved savedSubarus (some err)],
                file, .fatal err⟩
            | (file, none) =>
              ⟨steps ++ [.notified from_ to_ pass newSubarus none, .saved savedSubarus none],
                file, .returned⟩

/-- Whether a step is a call of `saveSubarus`. -/
def Event.isSave : Event → Bool
  | .saved _ _ => true
  | _ => false

/-- Whether a step is a call of `sendNotificationOfNewSubarus`. -/
def Event.isNotify : Event → Bool
  | .notified _ _ _ _ _ => true
  | _ => false

/-- Whether a step is a call of `sendNotificationOfNewSubarus` that returned
no error. -/
def Event.isNotifyOk : Event → Bool
  | .notified _ _ _ _ none => true
  | _ => false

/-! ## Concrete records and worlds -/

/-- A record with VIN `AAA`, as the first site lists it. -/
def recAAA : vehicle :=
  { vehicle.zero with Make := "SUBARU", VIN := "AAA", Site := "Cherry Picked Auto Parts" }

/-- A record with VIN `BBB`, as the first site lists it. -/
def recBBB : vehicle :=
  { vehicle.zero with Make := "Subaru", VIN := "BBB", Site := "Cherry Picked Auto Parts" }

/-- A record with VIN `BBB`, as the second site lists it. -/
def recBBBlkq : vehicle :=
  { vehicle.zero with
    Make := "Subaru", VIN := "BBB", Description := "Available On: ",
    Site := "LKQ Pick Your Part" }

/-- A feed row of the first site with make `SUBARU` and VIN `AAA`. -/
def rowAAA : List String := ["", "", "", "SUBARU", "", "", "", "", "AAA", ""]

/-- A feed row of the first site with make `Subaru` and VIN `BBB`. -/
def rowBBB : List String := ["", "", "", "Subaru", "", "", "", "", "BBB", ""]

/-- A feed row of the first site of another make. -/
def rowToyota : List String := ["7", "V9", "2001", "Toyota", "Camry", "Red", "", "2.2", "TTT", "9"]

/-- A world: the first site lists `AAA` and `BBB`, the second site nothing, the
file is `file`, the sender is `sender`, and the relay answers `relay`. -/
def worldWith (file : DbFile) (sender : String) (relay : Option String) : World :=
  { lower := id
    cherryReply := .replied 200 (.ok [rowAAA, rowToyota, rowBBB])
    lkqReply := .replied 200 (.ok [])
    file := file
    SUBARU_NOTIF_FROM := sender
    SUBARU_NOTIF_TO := ""
    SUBARU_NOTIF_PASS := "secret"
    marshalIndent := fun _ => .ok "[]"
    sendMail := fun _ _ _ _ _ => relay
    createErr := none
    encodeErr := fun _ => none
    afterFailedEncode := .missing }

/-- A world with the file `[AAA]` and no sender configured. -/
def worldNoSender : World := worldWith (.contents [recAAA]) "" none

/-- A world with the file `[AAA]`, a sender, and a relay that refuses. -/
def worldRelayDown : World :=
  worldWith (.contents [recAAA]) "me@example.org" (some "dial tcp: connection refused")

/-- A feed row of the target make with nine columns: the mileage is absent. -/
def rowNine : List String := ["", "", "", "SUBARU", "", "", "", "", "AAA"]

/-- A result row of the second site whose date cell is padded with blanks. -/
def rowPadded : ResultRow :=
  { makeText := "Subaru", modelText := "Outback", yearText := "2005",
    dateText := "\n  5/1/2024  ", notes := [] }

/-- A result row of the second site whose row paragraph repeats its label. -/
def rowLabelTwice : ResultRow :=
  { makeText := "Subaru", modelText := "Outback", yearText := "2005", dateText := "5/1/2024",
    notes := ["x", "Row: ROW " ++ "Row: ROW 12", "Space: " ++ "A5", "Color: " ++ "Blue",
      "VIN: " ++ "1A2B3C"] }

/-- A result row of the second site with the notes block of the specification. -/
def rowNotes : ResultRow :=
  { makeText := "Subaru", modelText := "Outback", yearText := "2005", dateText := "5/1/2024",
    notes := ["x", "Row: ROW " ++ "12", "Space: " ++ "A5", "Color: " ++ "Blue",
      "VIN: " ++ "1A2B3C"] ++ [] }

/-! ## Lemmas on the dedup loop -/

theorem isSaved_iff (v : vehicle) (l : List vehicle) :
    isSaved v l = true ↔ v.VIN ∈ l.map (fun sv => sv.VIN) := by
  induction l with
  | nil => simp [isSaved]
  | cons sv rest ih =>
    by_cases h : sv.VIN = v.VIN
    · simp [isSaved, h]
    · have h2 : ¬ v.VIN = sv.VIN := fun e => h e.symm
      simp [isSaved, h, h2, ih]

theorem dedupFrom_cons_saved (v : vehicle) (rest n s : List vehicle)
    (h : v.VIN ∈ s.map (fun sv => sv.VIN)) :
    dedupFrom (v :: rest) (n, s) = dedupFrom rest (n, s) := by
  have hs : isSaved v s = true := (isSaved_iff v s).2 h
  simp [dedupFrom, hs]

theorem dedupFrom_cons_fresh (v : vehicle) (rest n s : List vehicle)
    (h : v.VIN ∉ s.map (fun sv => sv.VIN)) :
    dedupFrom (v :: rest) (n, s) = dedupFrom rest (n ++ [v], s ++ [v]) := by
  have hs : ¬ isSaved v s = true := fun e => h ((isSaved_iff v s).1 e)
  simp [dedupFrom, hs]

theorem firstOccurrencesNotIn_cons (v : vehicle) (rest S : List vehicle) :
    firstOccurrencesNotIn (v :: rest) S =
      (keptAt (v :: rest) S 0).toList ++
        (List.range rest.length).filterMap (fun i => keptAt (v :: rest) S (i + 1)) := by
  unfold firstOccurrencesNotIn
  rw [List.length_cons, List.range_succ_eq_map, List.filterMap_cons, List.filterMap_map]
  cases h : keptAt (v :: rest) S 0 <;> simp [Function.comp_def]

theorem firstOccurrencesNotIn_cons_saved (v : vehicle) (rest S : List vehicle)
    (h : v.VIN ∈ S.map (fun sv => sv.VIN)) :
    firstOccurrencesNotIn (v :: rest) S = firstOccurrencesNotIn rest S := by
  rw [firstOccurrencesNotIn_cons]
  have h0 : keptAt (v :: rest) S 0 = none := by simp [keptAt, h]
  rw [h0]
  simp only [Option.toList, List.nil_append]
  unfold firstOccurrencesNotIn
  apply List.filterMap_congr
  intro i _
  unfold keptAt
  simp only [List.getElem?_cons_succ, List.take_succ_cons, List.map_cons, List.mem_cons]
  cases rest[i]? with
  | none => rfl
  | some w =>
    simp only
    by_cases hw : w.VIN = v.VIN
    · have : w.VIN ∈ S.map (fun sv => sv.VIN) := hw ▸ h
      simp [this]
    · simp [hw]

theorem firstOccurrencesNotIn_cons_fresh (v : vehicle) (rest S : List vehicle)
    (h : v.VIN ∉ S.map (fun sv => sv.VIN)) :
    firstOccurrencesNotIn (v :: rest) S = v :: firstOccurrencesNotIn rest (S ++ [v]) := by
  rw [firstOccurrencesNotIn_cons]
  have h0 : keptAt (v :: rest) S 0 = some v := by simp [keptAt, h]
  rw [h0]
  simp only [Option.toList, List.singleton_append, List.cons.injEq, true_and]
  unfold firstOccurrencesNotIn
  apply List.filterMap_congr
  intro i _
  unfold keptAt
  simp only [List.getElem?_cons_succ, List.take_succ_cons, List.map_cons, List.mem_cons,
    List.map_append, List.mem_append, List.map_nil, List.not_mem_nil, or_false]
  cases rest[i]? with
  | none => rfl
  | some w =>
    simp only
    congr 1
    apply propext
    constructor
    · rintro (h1 | h1 | h1)
      · exact Or.inl (Or.inl h1)
      · exact Or.inl (Or.inr h1)
      · exact Or.inr h1
    · rintro ((h1 | h1) | h1)
      · exact Or.inl h1
      · exact Or.inr (Or.inl h1)
      · exact Or.inr (Or.inr h1)

/-- The loop appends to both slices the first occurrences that are not saved. -/
theorem dedupFrom_eq (C n s : List vehicle) :
    dedupFrom C (n, s) = (n ++ firstOccurrencesNotIn C s, s ++ firstOccurrencesNotIn C s) := by
  induction C generalizing n s with
  | nil => simp [dedupFrom, firstOccurrencesNotIn]
  | cons v rest ih =>
    by_cases h : v.VIN ∈ s.map (fun sv => sv.VIN)
    · rw [dedupFrom_cons_saved v rest n s h, firstOccurrencesNotIn_cons_saved v rest s h]
      exact ih n s
    · rw [dedupFrom_cons_fresh v rest n s h, firstOccurrencesNotIn_cons_fresh v rest s h,
        ih (n ++ [v]) (s ++ [v])]
      simp

theorem dedupLoop_eq (C S : List vehicle) :
    dedupLoop C S = (firstOccurrencesNotIn C S, S ++ firstOccurrencesNotIn C S) := by
  simp [dedupLoop, dedupFrom_eq]

theorem filterNew_eq (C S : List vehicle) : filterNew C S = firstOccurrencesNotIn C S := by
  simp [filterNew, dedupLoop_eq]

theorem firstOccurrencesNotIn_nil (S : List vehicle) : firstOccurrencesNotIn [] S = [] := by
  simp [firstOccurrencesNotIn]

/-- A new record is a candidate whose VIN is not saved. -/
theorem mem_firstOccurrencesNotIn (C S : List vehicle) (w : vehicle)
    (hw : w ∈ firstOccurrencesNotIn C S) : w ∈ C ∧ w.VIN ∉ S.map (fun sv => sv.VIN) := by
  induction C generalizing S with
  | nil => simp [firstOccurrencesNotIn_nil] at hw
  | cons v rest ih =>
    by_cases h : v.VIN ∈ S.map (fun sv => sv.VIN)
    · rw [firstOccurrencesNotIn_cons_saved v rest S h] at hw
      exact ⟨List.mem_cons_of_mem _ (ih S hw).1, (ih S hw).2⟩
    · rw [firstOccurrencesNotIn_cons_fresh v rest S h] at hw
      rcases List.mem_cons.1 hw with e | hw2
      · subst e; exact ⟨List.mem_cons_self _ _, h⟩
      · refine ⟨List.mem_cons_of_mem _ (ih _ hw2).1, fun hin => (ih _ hw2).2 ?_⟩
        simp only [List.map_append, List.mem_append]
        exact Or.inl hin

/-- The new records have pairwise distinct VINs. -/
theorem firstOccurrencesNotIn_nodup (C S : List vehicle) :
    ((firstOccurrencesNotIn C S).map (fun c => c.VIN)).Nodup := by
  induction C generalizing S with
  | nil => simp [firstOccurrencesNotIn_nil]
  | cons v rest ih =>
    by_cases h : v.VIN ∈ S.map (fun sv => sv.VIN)
    · rw [firstOccurrencesNotIn_cons_saved v rest S h]; exact ih S
    · rw [firstOccurrencesNotIn_cons_fresh v rest S h, List.map_cons, List.nodup_cons]
      refine ⟨fun hin => ?_, ih _⟩
      obtain ⟨w, hw, e⟩ := List.mem_map.1 hin
      apply (mem_firstOccurrencesNotIn rest (S ++ [v]) w hw).2
      simp only [List.map_append, List.mem_append, List.map_cons, List.map_nil,
        List.mem_singleton]
      exact Or.inr e

/-- After the loop the VIN of every candidate is in the updated list. -/
theorem mem_updated_of_mem (C S : List vehicle) (v : vehicle) (hv : v ∈ C) :
    v.VIN ∈ (S ++ firstOccurrencesNotIn C S).map (fun sv => sv.VIN) := by
  induction C generalizing S with
  | nil => simp at hv
  | cons c rest ih =>
    by_cases h : c.VIN ∈ S.map (fun sv => sv.VIN)
    · rw [firstOccurrencesNotIn_cons_saved c rest S h]
      rcases List.mem_cons.1 hv with e | hv2
      · subst e
        simp only [List.map_append, List.mem_append]
        exact Or.inl h
      · exact ih S hv2
    · rw [firstOccurrencesNotIn_cons_fresh c rest S h]
      rcases List.mem_cons.1 hv with e | hv2
      · subst e; simp
      · have := ih (S ++ [c]) hv2
        simpa using this

/-- When the VIN of every candidate is saved, no record is new. -/
theorem firstOccurrencesNotIn_eq_nil (C S : List vehicle)
    (h : ∀ v ∈ C, v.VIN ∈ S.map (fun sv => sv.VIN)) : firstOccurrencesNotIn C S = [] := by
  induction C with
  | nil => exact firstOccurrencesNotIn_nil S
  | cons c rest ih =>
    rw [firstOccurrencesNotIn_cons_saved c rest S (h c (List.mem_cons_self _ _))]
    exact ih (fun v hv => h v (List.mem_cons_of_mem _ hv))

/-- When the candidates have pairwise distinct VINs, the new records are the
candidates whose VIN is not saved. -/
theorem firstOccurrencesNotIn_of_nodup (C S : List vehicle)
    (hC : (C.map (fun c => c.VIN)).Nodup) : firstOccurrencesNotIn C S = notInPersisted C S := by
  induction C generalizing S with
  | nil => simp [firstOccurrencesNotIn_nil, notInPersisted]
  | cons c rest ih =>
    rw [List.map_cons, List.nodup_cons] at hC
    by_cases h : c.VIN ∈ S.map (fun sv => sv.VIN)
    · rw [firstOccurrencesNotIn_cons_saved c rest S h, ih S hC.2]
      simp only [notInPersisted, List.filter_cons]
      simp only [h, not_true_eq_false, decide_False, Bool.false_eq_true, if_false]
    · rw [firstOccurrencesNotIn_cons_fresh c rest S h, ih (S ++ [c]) hC.2]
      have h2 : ¬ ∃ a ∈ S, a.VIN = c.VIN := by simpa using h
      simp only [notInPersisted, List.map_append, List.mem_append, List.map_cons, List.map_nil,
        List.mem_singleton, List.filter_cons]
      simp only [h, not_false_eq_true, decide_True, if_true, List.cons.injEq, true_and]
      apply List.filter_congr
      intro w hw
      have hne : w.VIN ≠ c.VIN := fun e => hC.1 (List.mem_map.2 ⟨w, hw, e⟩)
      simp [hne]

/-! ## The claims on the dedup loop -/

/-- C1, as stated, fails: with nothing persisted and the candidates `BBB` (first
site), `BBB` (second site), the loop reports one new record, while both
candidates have a VIN that no persisted record has. -/
theorem C1_filterNew_drops_repeated_vin :
    filterNew [recBBB, recBBBlkq] [] = [recBBB] ∧
      notInPersisted [recBBB, recBBBlkq] [] = [recBBB, recBBBlkq] ∧
      filterNew [recBBB, recBBBlkq] [] ≠ notInPersisted [recBBB, recBBBlkq] [] := by
  decide

/-- C1, amended: for every persisted list `S` and candidate sequence `C`, the
new records of the dedup loop are, in the order of `C`, the elements of `C`
whose VIN is neither the VIN of an element of `S` nor the VIN of an earlier
element of `C`. -/
theorem C1_filterNew_first_occurrences (C S : List vehicle) :
    filterNew C S = firstOccurrencesNotIn C S := by
  simp [filterNew, dedupLoop_eq]

/-- C2: when the loaded list has pairwise distinct VINs, the updated list of
the dedup loop has pairwise distinct VINs, whatever the candidates are. -/
theorem C2_updated_vins_distinct (C S : List vehicle)
    (hS : (S.map (fun sv => sv.VIN)).Nodup) :
    ((dedupLoop C S).2.map (fun sv => sv.VIN)).Nodup := by
  rw [dedupLoop_eq, List.map_append]
  refine List.Nodup.append hS (firstOccurrencesNotIn_nodup C S) ?_
  intro x hx hx2
  obtain ⟨w, hw, e⟩ := List.mem_map.1 hx2
  exact (mem_firstOccurrencesNotIn C S w hw).2 (e ▸ hx)

/-- C2 at the loaded list `[AAA]` and the candidates `AAA`, `BBB`, `BBB`. -/
theorem C2_updated_vins_distinct_witness :
    ([recAAA].map (fun sv => sv.VIN)).Nodup ∧
      ((dedupLoop [recAAA, recBBB, recBBBlkq] [recAAA]).2.map (fun sv => sv.VIN)).Nodup :=
  ⟨by decide, C2_updated_vins_distinct [recAAA, recBBB, recBBBlkq] [recAAA] (by decide)⟩

/-- C3: the updated list is the loaded list followed by the new records, so
every loaded record stays at its position; and the loaded list `[AAA]` with
the candidates `AAA`, `BBB` gives the new records `[BBB]` and the updated
list `[AAA, BBB]`. -/
theorem C3_updated_is_saved_then_new :
    (∀ C S : List vehicle, (dedupLoop C S).2 = S ++ (dedupLoop C S).1) ∧
      (∀ (C S : List vehicle) (i : Nat) (sv : vehicle),
        S[i]? = some sv → (dedupLoop C S).2[i]? = some sv) ∧
      dedupLoop [recAAA, recBBB] [recAAA] = ([recBBB], [recAAA, recBBB]) := by
  refine ⟨fun C S => by simp [dedupLoop_eq], fun C S i sv h => ?_, by decide⟩
  rw [dedupLoop_eq]
  have hi : i < S.length := by
    rcases Nat.lt_or_ge i S.length with h1 | h1
    · exact h1
    · rw [List.getElem?_eq_none h1] at h; cases h
  simp only
  rw [List.getElem?_append_left hi]
  exact h

/-! ## Lemmas on `main` -/

/-- The steps inside the notifier are never a call of `saveSubarus` or of the
notifier itself. -/
theorem send_steps (w : World) (from_ to_ pass : String) (subarus : List vehicle) :
    ∀ e ∈ (sendNotificationOfNewSubarus w from_ to_ pass subarus).1,
      e.isSave = false ∧ e.isNotify = false := by
  intro e he
  by_cases h1 : from_ = ""
  · simp [sendNotificationOfNewSubarus, h1] at he
  · by_cases h2 : pass = ""
    · simp [sendNotificationOfNewSubarus, h1, h2] at he
    · simp only [sendNotificationOfNewSubarus, h1, h2, if_false] at he
      cases hm : w.marshalIndent subarus with
      | error err =>
        rw [hm] at he
        simp only [List.mem_singleton] at he
        subst he
        exact ⟨rfl, rfl⟩
      | ok b =>
        rw [hm] at he
        simp only [List.mem_cons, List.mem_singleton, List.not_mem_nil, or_false] at he
        rcases he with he | he <;> subst he <;> exact ⟨rfl, rfl⟩

/-- The run of `main` once both fetches and the load have succeeded. -/
theorem main_of_loaded (w : World) (A B S : List vehicle)
    (hA : fetchCherryPickedSubarus w.lower w.cherryReply = .ok A)
    (hB : fetchLKQSubarus w.lkqReply = .ok B)
    (hS : loadSavedSubarus w.file = .ok S) :
    main w =
      if (filterNew (A ++ B) S).length = 0 then ⟨[], w.file, .returned⟩
      else
        match sendNotificationOfNewSubarus w w.SUBARU_NOTIF_FROM w.SUBARU_NOTIF_TO
            w.SUBARU_NOTIF_PASS (filterNew (A ++ B) S) with
        | (steps, some err) =>
          ⟨steps ++ [.notified w.SUBARU_NOTIF_FROM w.SUBARU_NOTIF_TO w.SUBARU_NOTIF_PASS
            (filterNew (A ++ B) S) (some err)], w.file, .fatal err⟩
        | (steps, none) =>
          match saveSubarus w (dedupLoop (A ++ B) S).2 with
          | (file, some err) =>
            ⟨steps ++ [.notified w.SUBARU_NOTIF_FROM w.SUBARU_NOTIF_TO w.SUBARU_NOTIF_PASS
              (filterNew (A ++ B) S) none, .saved (dedupLoop (A ++ B) S).2 (some err)],
              file, .fatal err⟩
          | (file, none) =>
            ⟨steps ++ [.notified w.SUBARU_NOTIF_FROM w.SUBARU_NOTIF_TO w.SUBARU_NOTIF_PASS
              (filterNew (A ++ B) S) none, .saved (dedupLoop (A ++ B) S).2 none],
              file, .returned⟩ := by
  unfold main
  rw [hA, hB, hS]
  rfl

/-- The three shapes of the trace of a run: empty; the steps of the notifier
and its failed return; the steps of the notifier, its successful return and
the call of `saveSubarus`. -/
theorem main_trace_shape (w : World) :
    (main w).trace = [] ∨
    (∃ steps f t p N err, (∀ e ∈ steps, Event.isSave e = false ∧ Event.isNotify e = false) ∧
      (main w).trace = steps ++ [.notified f t p N (some err)]) ∨
    (∃ steps f t p N S1 err, (∀ e ∈ steps, Event.isSave e = false ∧ Event.isNotify e = false) ∧
      (main w).trace = steps ++ [.notified f t p N none, .saved S1 err]) := by
  cases hA : fetchCherryPickedSubarus w.lower w.cherryReply with
  | error err => left; simp [main, hA]
  | fault => left; simp [main, hA]
  | ok A =>
    cases hB : fetchLKQSubarus w.lkqReply with
    | error err => left; simp [main, hA, hB]
    | fault => left; simp [main, hA, hB]
    | ok B =>
      cases hS : loadSavedSubarus w.file with
      | error err => left; simp [main, hA, hB, hS]
      | ok S =>
        rw [main_of_loaded w A B S hA hB hS]
        by_cases hN : (filterNew (A ++ B) S).length = 0
        · left; simp [hN]
        · right
          rw [if_neg hN]
          have hsteps := send_steps w w.SUBARU_NOTIF_FROM w.SUBARU_NOTIF_TO
            w.SUBARU_NOTIF_PASS (filterNew (A ++ B) S)
          rcases hsend : sendNotificationOfNewSubarus w w.SUBARU_NOTIF_FROM w.SUBARU_NOTIF_TO
            w.SUBARU_NOTIF_PASS (filterNew (A ++ B) S) with ⟨steps, _ | err⟩
          · right
            rw [hsend] at hsteps
            rcases hsave : saveSubarus w (dedupLoop (A ++ B) S).2 with ⟨file, _ | err⟩
            · exact ⟨steps, _, _, _, _, _, none, hsteps, rfl⟩
            · exact ⟨steps, _, _, _, _, _, some err, hsteps, rfl⟩
          · left
            rw [hsend] at hsteps
            exact ⟨steps, _, _, _, _, err, hsteps, rfl⟩

/-! ## The claims on `main` -/

/-- C4: for every loaded list `S` and candidate sequence `C`, the dedup loop on
`C` and the updated list of a first run yields no new record and the same
list; and a run of `main` that fetches `C` and loads that list returns with no
step taken (no call of the notifier, none of `saveSubarus`) and the file as it
was. -/
theorem C4_second_run_idempotent (C S : List vehicle) :
    dedupLoop C (dedupLoop C S).2 = ([], (dedupLoop C S).2) ∧
      ∀ (w : World) (A B : List vehicle),
        fetchCherryPickedSubarus w.lower w.cherryReply = .ok A →
        fetchLKQSubarus w.lkqReply = .ok B →
        A ++ B = C →
        loadSavedSubarus w.file = .ok (dedupLoop C S).2 →
        main w = ⟨[], w.file, .returned⟩ := by
  have h0 : firstOccurrencesNotIn C (dedupLoop C S).2 = [] := by
    rw [dedupLoop_eq]
    exact firstOccurrencesNotIn_eq_nil C _ (fun v hv => mem_updated_of_mem C S v hv)
  refine ⟨?_, fun w A B hA hB hC hS => ?_⟩
  · rw [dedupLoop_eq C (dedupLoop C S).2, h0, List.append_nil]
  · subst hC
    rw [main_of_loaded w A B _ hA hB hS, filterNew_eq, h0]
    rfl

/-- C4 at the loaded list `[AAA]` and the candidates `AAA`, `BBB`: the second
run, on the file `[AAA, BBB]`, takes no step. -/
theorem C4_second_run_idempotent_witness :
    fetchCherryPickedSubarus (worldWith (.contents [recAAA, recBBB]) "me@example.org" none).lower
        (worldWith (.contents [recAAA, recBBB]) "me@example.org" none).cherryReply
        = .ok [recAAA, recBBB] ∧
      fetchLKQSubarus (worldWith (.contents [recAAA, recBBB]) "me@example.org" none).lkqReply
        = .ok [] ∧
      loadSavedSubarus (worldWith (.contents [recAAA, recBBB]) "me@example.org" none).file
        = .ok (dedupLoop [recAAA, recBBB] [recAAA]).2 ∧
      main (worldWith (.contents [recAAA, recBBB]) "me@example.org" none)
        = ⟨[], .contents [recAAA, recBBB], .returned⟩ :=
  ⟨rfl, rfl, rfl,
    (C4_second_run_idempotent [recAAA, recBBB] [recAAA]).2
      (worldWith (.contents [recAAA, recBBB]) "me@example.org" none) [recAAA, recBBB] []
      rfl rfl rfl rfl⟩

/-- C5: in every run of `main` a call of `saveSubarus` comes after a call of
the notifier that returned no error; and when both fetches and the load
succeed, new records exist and the notifier returns an error (a configuration
error among them), the run has no call of `saveSubarus`, leaves the file as it
was and ends in `log.Fatal`, and every later run that fetches the same
listings and starts from that file calls the notifier with the same new
records. -/
theorem C5_save_only_after_notification (w : World) :
    (∀ (i : Nat) (saved : List vehicle) (err : Option Err),
        (main w).trace[i]? = some (.saved saved err) →
        ∃ j e, j < i ∧ (main w).trace[j]? = some e ∧ Event.isNotifyOk e = true) ∧
      ∀ (A B S steps) (err : Err),
        fetchCherryPickedSubarus w.lower w.cherryReply = .ok A →
        fetchLKQSubarus w.lkqReply = .ok B →
        loadSavedSubarus w.file = .ok S →
        filterNew (A ++ B) S ≠ [] →
        sendNotificationOfNewSubarus w w.SUBARU_NOTIF_FROM w.SUBARU_NOTIF_TO
          w.SUBARU_NOTIF_PASS (filterNew (A ++ B) S) = (steps, some err) →
        (∀ e ∈ (main w).trace, Event.isSave e = false) ∧
          (main w).file = w.file ∧ (main w).exit = .fatal err ∧
          ∀ w2 : World,
            fetchCherryPickedSubarus w2.lower w2.cherryReply = .ok A →
            fetchLKQSubarus w2.lkqReply = .ok B →
            w2.file = (main w).file →
            ∃ err2, Event.notified w2.SUBARU_NOTIF_FROM w2.SUBARU_NOTIF_TO w2.SUBARU_NOTIF_PASS
              (filterNew (A ++ B) S) err2 ∈ (main w2).trace := by
  constructor
  · intro i saved err hi
    rcases main_trace_shape w with h | ⟨steps, f, t, p, N, e1, hsteps, h⟩ |
      ⟨steps, f, t, p, N, S1, e1, hsteps, h⟩
    · rw [h] at hi; simp at hi
    · rw [h] at hi
      have hmem := List.getElem?_mem hi
      rcases List.mem_append.1 hmem with hm | hm
      · have := (hsteps _ hm).1; simp [Event.isSave] at this
      · simp at hm
    · rw [h] at hi
      rcases Nat.lt_trichotomy i (steps.length + 1) with hlt | heq | hgt
      · exfalso
        rcases Nat.lt_or_ge i steps.length with h1 | h1
        · rw [List.getElem?_append_left h1] at hi
          have := (hsteps _ (List.getElem?_mem hi)).1
          simp [Event.isSave] at this
        · have h2 : i = steps.length := by omega
          subst h2
          rw [List.getElem?_append_right (Nat.le_refl _)] at hi
          simp at hi
      · refine ⟨steps.length, .notified f t p N none, by omega, ?_, rfl⟩
        rw [h, List.getElem?_append_right (Nat.le_refl _)]
        simp
      · exfalso
        have h3 : (steps ++ [Event.notified f t p N none, Event.saved S1 e1]).length ≤ i := by
          simp; omega
        rw [List.getElem?_eq_none h3] at hi
        cases hi
  · intro A B S steps err hA hB hS hN hsend
    have hlen : ¬ (filterNew (A ++ B) S).length = 0 := fun h => hN (List.length_eq_zero.1 h)
    have hmain := main_of_loaded w A B S hA hB hS
    rw [if_neg hlen, hsend] at hmain
    have hst := send_steps w w.SUBARU_NOTIF_FROM w.SUBARU_NOTIF_TO w.SUBARU_NOTIF_PASS
      (filterNew (A ++ B) S)
    rw [hsend] at hst
    refine ⟨?_, ?_, ?_, ?_⟩
    · intro e he
      rw [hmain] at he
      rcases List.mem_append.1 he with hm | hm
      · exact (hst e hm).1
      · simp only [List.mem_singleton] at hm
        subst hm
        rfl
    · rw [hmain]
    · rw [hmain]
    · intro w2 hA2 hB2 hf
      have hfile : (main w).file = w.file := by rw [hmain]
      have hS2 : loadSavedSubarus w2.file = .ok S := by rw [hf, hfile, hS]
      have hmain2 := main_of_loaded w2 A B S hA2 hB2 hS2
      rw [if_neg hlen] at hmain2
      rw [hmain2]
      rcases sendNotificationOfNewSubarus w2 w2.SUBARU_NOTIF_FROM w2.SUBARU_NOTIF_TO
        w2.SUBARU_NOTIF_PASS (filterNew (A ++ B) S) with ⟨steps2, _ | err2⟩
      · rcases saveSubarus w2 (dedupLoop (A ++ B) S).2 with ⟨file2, _ | err3⟩
        · exact ⟨none, by simp⟩
        · exact ⟨none, by simp⟩
      · exact ⟨some err2, by simp⟩

/-- C5 at a run with the file `[AAA]`, the listings `AAA`, `BBB` and no sender
configured: the notifier returns its configuration error, nothing is saved,
and the next run reports `BBB` again. -/
theorem C5_save_only_after_notification_witness :
    fetchCherryPickedSubarus worldNoSender.lower worldNoSender.cherryReply
        = .ok [recAAA, recBBB] ∧
      fetchLKQSubarus worldNoSender.lkqReply = .ok [] ∧
      loadSavedSubarus worldNoSender.file = .ok [recAAA] ∧
      filterNew ([recAAA, recBBB] ++ []) [recAAA] = [recBBB] ∧
      sendNotificationOfNewSubarus worldNoSender "" "" "secret" [recBBB]
        = ([], some (.config "\x27from\x27 required to send email notification")) ∧
      ((∀ e ∈ (main worldNoSender).trace, Event.isSave e = false) ∧
        (main worldNoSender).file = .contents [recAAA] ∧
        (main worldNoSender).exit
          = .fatal (.config "\x27from\x27 required to send email notification") ∧
        ∀ w2 : World,
          fetchCherryPickedSubarus w2.lower w2.cherryReply = .ok [recAAA, recBBB] →
          fetchLKQSubarus w2.lkqReply = .ok [] →
          w2.file = (main worldNoSender).file →
          ∃ err2, Event.notified w2.SUBARU_NOTIF_FROM w2.SUBARU_NOTIF_TO w2.SUBARU_NOTIF_PASS
            (filterNew ([recAAA, recBBB] ++ []) [recAAA]) err2 ∈ (main w2).trace) :=
  ⟨rfl, rfl, rfl, by decide, rfl,
    (C5_save_only_after_notification worldNoSender).2 [recAAA, recBBB] [] [recAAA] []
      (.config "\x27from\x27 required to send email notification") rfl rfl rfl (by decide) rfl⟩

/-! ## The claim on the notifier -/

/-- C6: the notifier returns a configuration error if and only if the sender
or the credential is empty, and then it takes no step (the message is not
built, no network call is made); with a sender and a credential and an empty
recipient the error, if any, is not a configuration error, and once the body
is built the envelope recipient and the `To` header are the sender. -/
theorem C6_config_error_iff (w : World) (from_ to_ pass : String) (subarus : List vehicle) :
    ((∃ e, (sendNotificationOfNewSubarus w from_ to_ pass subarus).2 = some e ∧
        Err.isConfig e = true) ↔ (from_ = "" ∨ pass = "")) ∧
      (from_ = "" ∨ pass = "" → (sendNotificationOfNewSubarus w from_ to_ pass subarus).1 = []) ∧
      (from_ ≠ "" → pass ≠ "" → to_ = "" →
        (∀ e, (sendNotificationOfNewSubarus w from_ to_ pass subarus).2 = some e →
          Err.isConfig e = false) ∧
        ∀ b, w.marshalIndent subarus = .ok b →
          (sendNotificationOfNewSubarus w from_ to_ pass subarus).1 =
            [.marshalled subarus,
              .mailed "smtp.gmail.com:587" ⟨"", from_, pass, "smtp.gmail.com"⟩ from_ [from_]
                ("From: " ++ from_ ++ "\nTo: " ++ from_ ++ "\nSubject: New Subarus Found!\n\n"
                  ++ b)]) := by
  have key : from_ ≠ "" → pass ≠ "" →
      ∀ e, (sendNotificationOfNewSubarus w from_ to_ pass subarus).2 = some e →
        Err.isConfig e = false := by
    intro h1 h2 e he
    simp only [sendNotificationOfNewSubarus, h1, h2, if_false] at he
    cases hm : w.marshalIndent subarus with
    | error err =>
      rw [hm] at he
      simp only [Option.some.injEq] at he
      subst he
      rfl
    | ok b =>
      rw [hm] at he
      simp only [Option.map_eq_some'] at he
      obtain ⟨msg, _, hmsg⟩ := he
      subst hmsg
      rfl
  refine ⟨⟨?_, ?_⟩, ?_, ?_⟩
  · rintro ⟨e, he, hc⟩
    by_contra hne
    have h1 : from_ ≠ "" := fun h => hne (Or.inl h)
    have h2 : pass ≠ "" := fun h => hne (Or.inr h)
    rw [key h1 h2 e he] at hc
    cases hc
  · intro h
    by_cases h1 : from_ = ""
    · exact ⟨.config "\x27from\x27 required to send email notification",
        by simp [sendNotificationOfNewSubarus, h1], rfl⟩
    · have h2 : pass = "" := h.resolve_left h1
      exact ⟨.config "\x27pass\x27 required to send email notification",
        by simp [sendNotificationOfNewSubarus, h1, h2], rfl⟩
  · intro h
    by_cases h1 : from_ = ""
    · simp [sendNotificationOfNewSubarus, h1]
    · have h2 : pass = "" := h.resolve_left h1
      simp [sendNotificationOfNewSubarus, h1, h2]
  · intro h1 h2 h3
    refine ⟨key h1 h2, fun b hb => ?_⟩
    simp only [sendNotificationOfNewSubarus, h1, h2, h3, if_false, if_true, hb]

/-- C6 at a sender, a credential and an empty recipient: the mail goes to the
sender. -/
theorem C6_config_error_iff_witness :
    (sendNotificationOfNewSubarus worldRelayDown "me@example.org" "" "secret" [recBBB]).1 =
      [.marshalled [recBBB],
        .mailed "smtp.gmail.com:587" ⟨"", "me@example.org", "secret", "smtp.gmail.com"⟩
          "me@example.org" ["me@example.org"]
          "From: me@example.org\nTo: me@example.org\nSubject: New Subarus Found!\n\n[]"] :=
  ((C6_config_error_iff worldRelayDown "me@example.org" "" "secret" [recBBB]).2.2
    (by decide) (by decide) rfl).2 "[]" rfl

/-! ## The claims on `fetchCherryPickedSubarus` -/

theorem index_of_lt (v : List String) (i : Nat) (h : i < v.length) :
    index v i = some (col v i) := by
  simp [index, col, List.getD, List.getElem?_eq_getElem h]

theorem index_of_ge (v : List String) (i : Nat) (h : v.length ≤ i) : index v i = none := by
  simp [index, List.getElem?_eq_none h]

/-- A row of at least ten columns: skipped when its make is not the target
make, mapped by the column table otherwise. -/
theorem cherryRow_of_ten (lower : Char → Char) (v : List String) (h : 10 ≤ v.length) :
    cherryRow lower v =
      if equalIgnoringCase lower (col v 3) "subaru" then some (some (cherryRecord v))
      else some none := by
  have e : ToLower lower "subaru" = "subaru" := rfl
  unfold cherryRow
  rw [index_of_lt v 3 (by omega), index_of_lt v 4 (by omega), index_of_lt v 2 (by omega),
    index_of_lt v 8 (by omega), index_of_lt v 5 (by omega), index_of_lt v 9 (by omega),
    index_of_lt v 7 (by omega), index_of_lt v 0 (by omega), index_of_lt v 1 (by omega),
    index_of_lt v 6 (by omega)]
  simp only [Option.some_bind, equalIgnoringCase, e]
  by_cases hm : ToLower lower (col v 3) = "subaru"
  · simp [hm, cherryRecord]
  · simp [hm]

theorem cherryLoop_of_ten (lower : Char → Char) (response : List (List String))
    (subarus : List vehicle) (h : ∀ v ∈ response, 10 ≤ v.length) :
    cherryLoop lower response subarus =
      some (subarus ++
        (response.filter (fun v => decide (equalIgnoringCase lower (col v 3) "subaru"))).map
          cherryRecord) := by
  induction response generalizing subarus with
  | nil => simp [cherryLoop]
  | cons v rest ih =>
    have hv := cherryRow_of_ten lower v (h v (List.mem_cons_self _ _))
    have hrest : ∀ x ∈ rest, 10 ≤ x.length := fun x hx => h x (List.mem_cons_of_mem _ hx)
    unfold cherryLoop
    rw [hv]
    by_cases hm : equalIgnoringCase lower (col v 3) "subaru"
    · simp [hm, ih _ hrest]
    · simp [hm, ih _ hrest]

/-- C7: on a decoded feed whose rows all have at least ten columns,
`fetchCherryPickedSubarus` returns, in feed order, the rows whose column 3 is
`subaru` up to case, each mapped by the column table with the site
`Cherry Picked Auto Parts`; `SUBARU`, `Subaru` and `sUbArU` match, and
`Toyota` does not. -/
theorem C7_cherry_filter_map (lower : Char → Char) (response : List (List String))
    (h : ∀ v ∈ response, 10 ≤ v.length) :
    fetchCherryPickedSubarus lower (.replied 200 (.ok response)) =
        .ok ((response.filter
          (fun v => decide (equalIgnoringCase lower (col v 3) "subaru"))).map cherryRecord) ∧
      equalIgnoringCase lower "SUBARU" "subaru" ∧
      equalIgnoringCase lower "Subaru" "subaru" ∧
      equalIgnoringCase lower "sUbArU" "subaru" ∧
      ¬ equalIgnoringCase lower "Toyota" "subaru" := by
  refine ⟨?_, rfl, rfl, rfl, ?_⟩
  · simp [fetchCherryPickedSubarus, cherryLoop_of_ten lower response [] h]
  · simp [equalIgnoringCase, ToLower, toLowerRune]

/-- C7 at the feed `AAA` (make `SUBARU`), a Toyota, `BBB` (make `Subaru`). -/
theorem C7_cherry_filter_map_witness :
    (∀ v ∈ [rowAAA, rowToyota, rowBBB], 10 ≤ v.length) ∧
      fetchCherryPickedSubarus id (.replied 200 (.ok [rowAAA, rowToyota, rowBBB]))
        = .ok [recAAA, recBBB] :=
  ⟨by decide, (C7_cherry_filter_map id [rowAAA, rowToyota, rowBBB] (by decide)).1⟩

/-- C8, as stated, fails: the empty row and a row of the target make with nine
columns end in the out-of-range panic, and so does the fetch of a feed that
holds one of them. -/
theorem C8_short_row_faults :
    cherryRow id [] = none ∧ cherryRow id rowNine = none ∧
      fetchCherryPickedSubarus id (.replied 200 (.ok [rowAAA, rowNine])) = .fault ∧
      fetchCherryPickedSubarus id (.replied 200 (.ok [[]])) = .fault := by
  decide

/-- C8, amended: the row-to-record mapping ends in the out-of-range panic
exactly on a row with fewer than four columns and on a row of the target make
with fewer than ten; a row of another make with at least four columns is
skipped; and a record is built only from a row of at least ten columns, every
field being the column of the table, so no field is ever filled with an empty
string for an absent column. -/
theorem C8_row_mapping_total_iff (lower : Char → Char) (v : List String) :
    (cherryRow lower v = none ↔
        (v.length < 4 ∨ (equalIgnoringCase lower (col v 3) "subaru" ∧ v.length < 10))) ∧
      (4 ≤ v.length → ¬ equalIgnoringCase lower (col v 3) "subaru" →
        cherryRow lower v = some none) ∧
      (∀ x, cherryRow lower v = some (some x) → 10 ≤ v.length ∧ x = cherryRecord v) := by
  rcases Nat.lt_or_ge v.length 4 with h4 | h4
  · have h0 : cherryRow lower v = none := by
      unfold cherryRow
      rw [index_of_ge v 3 (by omega)]
    refine ⟨⟨fun _ => Or.inl h4, fun _ => h0⟩, fun h => absurd h (by omega), ?_⟩
    intro x hx
    rw [h0] at hx
    cases hx
  · by_cases hm : equalIgnoringCase lower (col v 3) "subaru"
    · rcases Nat.lt_or_ge v.length 10 with h10 | h10
      · have h0 : cherryRow lower v = none := by
          have hm2 : ToLower lower (col v 3) = "subaru" := hm
          have h9 := index_of_ge v 9 (by omega)
          unfold cherryRow
          rw [index_of_lt v 3 (by omega), index_of_lt v 2 (by omega), h9]
          simp only [hm2, ne_eq, not_true_eq_false, if_false, Option.some_bind,
            Option.none_bind]
          cases index v 4 <;> simp only [Option.some_bind, Option.none_bind]
          cases index v 8 <;> simp only [Option.some_bind, Option.none_bind]
          cases index v 5 <;> simp only [Option.some_bind, Option.none_bind]
        refine ⟨⟨fun _ => Or.inr ⟨hm, h10⟩, fun _ => h0⟩, fun _ h => absurd hm h, ?_⟩
        intro x hx
        rw [h0] at hx
        cases hx
      · have h1 := cherryRow_of_ten lower v h10
        rw [if_pos hm] at h1
        refine ⟨⟨fun h => ?_, fun h => ?_⟩, fun _ h => absurd hm h, ?_⟩
        · rw [h1] at h; cases h
        · rcases h with h | ⟨_, h⟩ <;> omega
        · intro x hx
          rw [h1] at hx
          simp only [Option.some.injEq] at hx
          exact ⟨h10, hx.symm⟩
    · have h1 : cherryRow lower v = some none := by
        have hm2 : ¬ ToLower lower (col v 3) = "subaru" := hm
        unfold cherryRow
        rw [index_of_lt v 3 (by omega)]
        simp only [ne_eq, hm2, not_false_eq_true, if_true]
      refine ⟨⟨fun h => ?_, fun h => ?_⟩, fun _ _ => h1, ?_⟩
      · rw [h1] at h; cases h
      · rcases h with h | ⟨h, _⟩
        · omega
        · exact absurd h hm
      · intro x hx
        rw [h1] at hx
        simp at hx

/-! ## The claims on `fetchLKQSubarus` -/

/-- Where `old` does not occur, the scan copies the text. -/
theorem replaceFrom_of_not_infix (old new s : List Char) (h : ¬ old <:+: s) :
    replaceFrom old new 0 s = s := by
  induction s with
  | nil => rfl
  | cons c cs ih =>
    have hp : ¬ old.isPrefixOf (c :: cs) = true := fun hp =>
      h (List.isPrefixOf_iff_prefix.1 hp).isInfix
    have hcs : ¬ old <:+: cs := fun hi => h (List.infix_cons hi)
    simp [replaceFrom, hp, ih hcs]

/-- Where the non-empty `old` does not occur, `Replace` returns the text. -/
theorem Replace_of_not_infix (s old new : String) (h : ¬ old.data <:+: s.data) :
    Replace s old new = s := by
  have hne : ¬ old.data = [] := fun e => h (e ▸ List.nil_infix)
  simp only [Replace, hne, if_false, replaceFrom_of_not_infix old.data new.data s.data h]

theorem notesCase_of_ge (v : vehicle) (i : Nat) (text : String) (h : 5 ≤ i) :
    notesCase v i text = v := by
  rcases i with _ | _ | _ | _ | _ | i
  · omega
  · omega
  · omega
  · omega
  · omega
  · rfl

/-- Paragraphs from index 5 on change nothing. -/
theorem notesEach_of_ge (more : List String) (i : Nat) (v : vehicle) (h : 5 ≤ i) :
    notesEach more i v = v := by
  induction more generalizing i with
  | nil => rfl
  | cons text rest ih =>
    simp only [notesEach, notesCase_of_ge v i text h]
    exact ih (i + 1) (by omega)

/-- The four fields of the notes block: each is the text after the label with
every further occurrence of the label removed. -/
theorem lkqRow_notes (s : ResultRow) (p0 r n c v : String) (more : List String)
    (hs : s.notes = [p0, "Row: ROW " ++ r, "Space: " ++ n, "Color: " ++ c, "VIN: " ++ v] ++ more) :
    (lkqRow s).Row = Replace r "Row: ROW " "" ∧
      (lkqRow s).VehicleNumber = Replace n "Space: " "" ∧
      (lkqRow s).Color = Replace c "Color: " "" ∧
      (lkqRow s).VIN = Replace v "VIN: " "" := by
  have hr : Replace ("Row: ROW " ++ r) "Row: ROW " "" = Replace r "Row: ROW " "" := by
    simp [Replace, replaceFrom]
  have hn : Replace ("Space: " ++ n) "Space: " "" = Replace n "Space: " "" := by
    simp [Replace, replaceFrom]
  have hc : Replace ("Color: " ++ c) "Color: " "" = Replace c "Color: " "" := by
    simp [Replace, replaceFrom]
  have hv : Replace ("VIN: " ++ v) "VIN: " "" = Replace v "VIN: " "" := by
    simp [Replace, replaceFrom]
  unfold lkqRow
  rw [hs]
  simp only [List.cons_append, List.nil_append, List.append_eq, notesEach, notesCase,
    Nat.zero_add, Nat.reduceAdd]
  rw [notesEach_of_ge more 5 _ (Nat.le_refl 5), hr, hn, hc, hv]
  exact ⟨rfl, rfl, rfl, rfl⟩

/-- C9, as stated, fails: for the value `Row: ROW 12` of the row location, the
paragraph `Row: ROW Row: ROW 12` yields the row `12`, not the value. -/
theorem C9_label_inside_value :
    rowLabelTwice.notes =
        ["x", "Row: ROW " ++ "Row: ROW 12", "Space: " ++ "A5", "Color: " ++ "Blue",
          "VIN: " ++ "1A2B3C"] ∧
      (lkqRow rowLabelTwice).Row = "12" ∧ (lkqRow rowLabelTwice).Row ≠ "Row: ROW 12" := by
  decide

/-- C9, amended: for every `p0` and all `r`, `n`, `c`, `v`, the notes block
`[p0, "Row: ROW " + r, "Space: " + n, "Color: " + c, "VIN: " + v]`, followed by any
further paragraphs, yields as Row, VehicleNumber, Color and VIN the values
`r`, `n`, `c`, `v` with every occurrence of the label of the field (`Row: ROW `,
`Space: `, `Color: `, `VIN: `) removed; so a field is the value itself whenever
its label does not occur in the value. -/
theorem C9_notes_positional (s : ResultRow) (p0 r n c v : String) (more : List String)
    (hs : s.notes = [p0, "Row: ROW " ++ r, "Space: " ++ n, "Color: " ++ c, "VIN: " ++ v] ++ more) :
    ((lkqRow s).Row = Replace r "Row: ROW " "" ∧
        (lkqRow s).VehicleNumber = Replace n "Space: " "" ∧
        (lkqRow s).Color = Replace c "Color: " "" ∧
        (lkqRow s).VIN = Replace v "VIN: " "") ∧
      (¬ "Row: ROW ".data <:+: r.data → (lkqRow s).Row = r) ∧
      (¬ "Space: ".data <:+: n.data → (lkqRow s).VehicleNumber = n) ∧
      (¬ "Color: ".data <:+: c.data → (lkqRow s).Color = c) ∧
      (¬ "VIN: ".data <:+: v.data → (lkqRow s).VIN = v) := by
  obtain ⟨h1, h2, h3, h4⟩ := lkqRow_notes s p0 r n c v more hs
  refine ⟨⟨h1, h2, h3, h4⟩, fun h => ?_, fun h => ?_, fun h => ?_, fun h => ?_⟩
  · rw [h1, Replace_of_not_infix r _ _ h]
  · rw [h2, Replace_of_not_infix n _ _ h]
  · rw [h3, Replace_of_not_infix c _ _ h]
  · rw [h4, Replace_of_not_infix v _ _ h]

/-- C9 at the notes block of the specification: Row `12`, VehicleNumber `A5`,
Color `Blue`, VIN `1A2B3C`. -/
theorem C9_notes_positional_witness :
    rowNotes.notes =
        ["x", "Row: ROW " ++ "12", "Space: " ++ "A5", "Color: " ++ "Blue", "VIN: " ++ "1A2B3C"]
          ++ [] ∧
      (lkqRow rowNotes).Row = "12" ∧ (lkqRow rowNotes).VehicleNumber = "A5" ∧
      (lkqRow rowNotes).Color = "Blue" ∧ (lkqRow rowNotes).VIN = "1A2B3C" :=
  ⟨rfl,
    (C9_notes_positional rowNotes "x" "12" "A5" "Blue" "1A2B3C" [] rfl).2.1 (by decide),
    (C9_notes_positional rowNotes "x" "12" "A5" "Blue" "1A2B3C" [] rfl).2.2.1 (by decide),
    (C9_notes_positional rowNotes "x" "12" "A5" "Blue" "1A2B3C" [] rfl).2.2.2.1 (by decide),
    (C9_notes_positional rowNotes "x" "12" "A5" "Blue" "1A2B3C" [] rfl).2.2.2.2 (by decide)⟩

theorem notesCase_keeps (v : vehicle) (i : Nat) (text : String) :
    (notesCase v i text).Description = v.Description ∧ (notesCase v i text).Site = v.Site := by
  rcases i with _ | _ | _ | _ | _ | i <;> exact ⟨rfl, rfl⟩

theorem notesEach_keeps (notes : List String) (i : Nat) (v : vehicle) :
    (notesEach notes i v).Description = v.Description ∧ (notesEach notes i v).Site = v.Site := by
  induction notes generalizing i v with
  | nil => exact ⟨rfl, rfl⟩
  | cons text rest ih =>
    simp only [notesEach]
    rw [(ih (i + 1) (notesCase v i text)).1, (ih (i + 1) (notesCase v i text)).2]
    exact notesCase_keeps v i text

theorem lkqEach_eq (rows : List ResultRow) (subarus : List vehicle) :
    lkqEach rows subarus = subarus ++ rows.map lkqRow := by
  induction rows generalizing subarus with
  | nil => simp [lkqEach]
  | cons s rest ih => simp [lkqEach, ih]

/-- C10, as stated, fails: for a date cell padded with blanks the description
keeps the blanks. -/
theorem C10_description_not_trimmed :
    rowPadded.dateText = "\n  5/1/2024  " ∧ trimmed rowPadded.dateText = "5/1/2024" ∧
      (lkqRow rowPadded).Description = "Available On: \n  5/1/2024  " ∧
      (lkqRow rowPadded).Description ≠ "Available On: " ++ trimmed rowPadded.dateText := by
  decide

/-- C10, amended: `fetchLKQSubarus` builds one record per result row, in
order, and the record of a row with date-cell text `d` has the description
`Available On: ` followed by `d` as it is, and the site `LKQ Pick Your Part`. -/
theorem C10_description_and_site (rows : List ResultRow) (s : ResultRow) :
    fetchLKQSubarus (.replied 200 (.ok rows)) = .ok (rows.map lkqRow) ∧
      (lkqRow s).Description = "Available On: " ++ s.dateText ∧
      (lkqRow s).Site = "LKQ Pick Your Part" := by
  refine ⟨by simp [fetchLKQSubarus, lkqEach_eq], ?_, ?_⟩
  · unfold lkqRow
    exact (notesEach_keeps s.notes 0 _).1
  · unfold lkqRow
    exact (notesEach_keeps s.notes 0 _).2

end SubaruSearcher
